import Mathlib

/-!
Shallow embedding of the subtask-grouped scoring engine:
  * `src/cms/grading/scoretypes/GroupMin.py` (class `GroupMin`), and
  * `src/cms/grading/__init__.py` (`get_simple_status_text`, `format_status_text`).

Modelling conventions:
  * Python floats are modelled as exact rationals (`ℚ`); the claims under study are
    algebraic relations that hold exactly at this level.
  * The object state consumed by `GroupMin.compute_score` but defined in the
    `ScoreTypeGroup`/`ScoreType` parent classes (not part of the excerpt) is passed
    explicitly: `self.parameters` becomes a `List Param`,
    `self.retrieve_target_testcases()` becomes a `List (List String)` of per-subtask
    testcase codenames, `self.public_testcases` a `String → Bool` map, and the
    submission result becomes an `evaluated : Bool` flag plus a total
    `evaluations : String → Evaluation` map (the claims presuppose an outcome for
    every testcase, so the codename-keyed dict is modelled as a total function).
  * Python runtime errors that `compute_score` can hit (`IndexError` on a missing
    target list, `ValueError` on `min([])`) are modelled by returning `none`.
-/

namespace CMS

/-- One `Evaluation` row of a submission result: raw `outcome`, diagnostic `text`
(status template list), execution time and memory. -/
structure Evaluation where
  outcome : ℚ
  text : List String
  execution_time : ℚ
  execution_memory : ℤ
deriving DecidableEq

/-- One entry of `self.parameters` for a group score type: the Python value is a list
`[m, t]` or `[m, t, title]`.  `weight` is `parameter[0]`, `tspec` is the target
specification `parameter[1]` (opaque to `compute_score`), and `alt_title` is
`parameter[-1]` exactly when `len(parameter) >= 3`. -/
structure Param where
  weight : ℚ
  tspec : String
  alt_title : Option String
deriving DecidableEq

/-- The per-testcase breakdown dict built by `GroupMin.compute_score`. -/
structure TestcaseFeedback where
  idx : String
  outcome : String
  text : List String
  time : ℚ
  memory : ℤ
  show_in_restricted_feedback : Bool
deriving DecidableEq

/-- The per-subtask breakdown dict built by `GroupMin.compute_score`
(`alt_title` is present exactly when `len(parameter) >= 3`). -/
structure SubtaskFeedback where
  idx : ℕ
  score_fraction : ℚ
  max_score : ℚ
  testcases : List TestcaseFeedback
  alt_title : Option String
deriving DecidableEq

/-- An entry of the per-subtask `public_testcases` list: the full breakdown dict for a
public testcase, or the identifier-only dict for a private one. -/
inductive PublicTestcase where
  | full (tc : TestcaseFeedback)
  | idxOnly (idx : String)
deriving DecidableEq

/-- An entry of `public_subtasks`: the full subtask dict when every testcase of the
subtask is public, or the reduced dict carrying only the index and the per-testcase
public entries. -/
inductive PublicSubtask where
  | full (st : SubtaskFeedback)
  | restricted (idx : ℕ) (testcases : List PublicTestcase)
deriving DecidableEq

/-- The `idx` field carried by either shape of `public_subtasks` entry. -/
def PublicSubtask.idx : PublicSubtask → ℕ
  | .full st => st.idx
  | .restricted i _ => i

/-- The five-tuple returned by `GroupMin.compute_score`. -/
structure ScoreResult where
  score : ℚ
  subtasks : List SubtaskFeedback
  public_score : ℚ
  public_subtasks : List PublicSubtask
  ranking_details : List String
deriving DecidableEq

namespace GroupMin

/-- Embedding of `GroupMin.get_public_outcome`: classify an outcome into one of the
three translatable labels (`N_` is the identity). -/
def get_public_outcome (outcome : ℚ) (_unused_parameter : Param) : String :=
  if outcome ≤ 0 then "Not correct"
  else if outcome ≥ 1 then "Correct"
  else "Partially correct"

/-- Embedding of `GroupMin.reduce`: `min(outcomes)`; Python raises `ValueError` on an
empty list, modelled as `none`. -/
def reduce (outcomes : List ℚ) (_unused_parameter : Param) : Option ℚ :=
  outcomes.min?

/-- The inner `for tc_idx in target` loop of `GroupMin.compute_score`: threads the
`previous_tc_all_correct` flag through the subtask's testcases in order, building the
full breakdown list and the public breakdown list. -/
def tc_loop (evaluations : String → Evaluation) (public_testcases : String → Bool)
    (parameter : Param) (worst_outcome : ℚ) (previous_tc_all_correct : Bool) :
    List String → List TestcaseFeedback × List PublicTestcase
  | [] => ([], [])
  | tc_idx :: rest =>
    let ev := evaluations tc_idx
    let entry : TestcaseFeedback :=
      { idx := tc_idx
        outcome := get_public_outcome ev.outcome parameter
        text := ev.text
        time := ev.execution_time
        memory := ev.execution_memory
        show_in_restricted_feedback := previous_tc_all_correct }
    if public_testcases tc_idx then
      -- Only block restricted feedback if this is the first *public* non-correct
      -- testcase (source comment); the flag flips when `outcome <= worst_outcome`.
      let nextFlag := if ev.outcome ≤ worst_outcome then false else previous_tc_all_correct
      let r := tc_loop evaluations public_testcases parameter worst_outcome nextFlag rest
      (entry :: r.1, .full entry :: r.2)
    else
      let r :=
        tc_loop evaluations public_testcases parameter worst_outcome previous_tc_all_correct rest
      (entry :: r.1, .idxOnly tc_idx :: r.2)

/-- Python's `round(x, 2)` on an exact rational (ties rounded as by `round`; the claims
never inspect a tie). -/
def roundTo2 (q : ℚ) : ℚ := (round (q * 100) : ℤ) / 100

/-- Rendering of `"%g" % x` for the values reaching it here (multiples of `1/100` after
`roundTo2`): decimal with trailing zeros trimmed.  `pct_g 0 = "0"`, matching the
`"%lg" % 0.0` placeholder of the unevaluated branch. -/
def pct_g (q : ℚ) : String :=
  let sgn := if q < 0 then "-" else ""
  let cents : ℕ := (⌊|q| * 100⌋).toNat
  let ip := cents / 100
  let fr := cents % 100
  if fr = 0 then sgn ++ toString ip
  else if fr % 10 = 0 then sgn ++ toString ip ++ "." ++ toString (fr / 10)
  else if fr < 10 then sgn ++ toString ip ++ ".0" ++ toString fr
  else sgn ++ toString ip ++ "." ++ toString fr

/-- The values one iteration of the subtask loop contributes. -/
structure StepResult where
  st_score : ℚ
  subtask_dict : SubtaskFeedback
  public_entry : PublicSubtask
  all_public : Bool
  ranking : String
deriving DecidableEq

/-- One iteration of the `for st_idx, parameter in enumerate(self.parameters)` body of
`GroupMin.compute_score`, for subtask index `st_idx` with testcase list `target`. -/
def compute_subtask (st_idx : ℕ) (parameter : Param) (target : List String)
    (public_testcases : String → Bool) (evaluations : String → Evaluation) :
    Option StepResult := do
  let outcomes := target.map fun tc_idx => (evaluations tc_idx).outcome
  let worst_outcome ← outcomes.min?
  let tcs := tc_loop evaluations public_testcases parameter worst_outcome true target
  let testcases := tcs.1
  let public_tcs := tcs.2
  let st_score_fraction ← reduce outcomes parameter
  let st_score := st_score_fraction * parameter.weight
  let subtask_dict : SubtaskFeedback :=
    { idx := st_idx + 1
      score_fraction := st_score_fraction
      max_score := parameter.weight
      testcases := testcases
      alt_title := parameter.alt_title }
  let all_public := target.all public_testcases
  let public_entry : PublicSubtask :=
    if all_public then .full subtask_dict else .restricted (st_idx + 1) public_tcs
  some { st_score := st_score
         subtask_dict := subtask_dict
         public_entry := public_entry
         all_public := all_public
         ranking := pct_g (roundTo2 st_score) }

/-- The subtask loop of `GroupMin.compute_score`, accumulating the five outputs;
`none` models the `IndexError` raised when `targets` has no list for some subtask. -/
def subtask_loop (public_testcases : String → Bool) (evaluations : String → Evaluation) :
    ℕ → List Param → List (List String) → Option ScoreResult
  | _, [], _ => some ⟨0, [], 0, [], []⟩
  | _, _ :: _, [] => none
  | st_idx, parameter :: params, target :: targets => do
    let step ← compute_subtask st_idx parameter target public_testcases evaluations
    let rest ← subtask_loop public_testcases evaluations (st_idx + 1) params targets
    some { score := step.st_score + rest.score
           subtasks := step.subtask_dict :: rest.subtasks
           public_score := (if step.all_public then step.st_score else 0) + rest.public_score
           public_subtasks := step.public_entry :: rest.public_subtasks
           ranking_details := step.ranking :: rest.ranking_details }

/-- Embedding of `GroupMin.compute_score`.  When `evaluated` is false it returns the
zero tuple with one `"%lg" % 0.0 == "0"` placeholder per parameter; otherwise it runs
the subtask loop. -/
def compute_score (parameters : List Param) (targets : List (List String))
    (public_testcases : String → Bool) (evaluations : String → Evaluation)
    (evaluated : Bool) : Option ScoreResult :=
  if !evaluated then
    some ⟨0, [], 0, [], parameters.map fun _ => "0"⟩
  else
    subtask_loop public_testcases evaluations 0 parameters targets

end GroupMin

/-! Embedding of the status text formatter of `src/cms/grading/__init__.py`. -/

/-- Python's `status.startswith(old)` on strings. -/
def str_startswith (status old : String) : Bool :=
  old.data.isPrefixOf status.data

/-- The fixed ordered prefix table `mapping_startswith` of `get_simple_status_text`. -/
def mapping_startswith : List (String × String) :=
  [("Evaluation didn\x27t produce file",
    "Output file was not produced. Check you are creating the output file " ++
    "with name given in the problem statement. You may wish to use or consult the templates for this problem."),
   ("Execution timed out",
    "Time limit exceeded before your program finished. " ++
    "This may be due to an infinite loop/recursion, or your " ++
    "algorithm may be too slow for this subtask"),
   ("Execution killed",
    "Program crashed. Possibly due to accessing or requesting invalid memory " ++
    "(e.g. out-of-bounds array access)"),
   ("Execution failed because the return code was nonzero",
    "Your program did not finish successfully " ++
    "(return code nonzero). Possibly due to an Exception or Error being thrown.")]

/-- The `for old, new in mapping_startswith` loop of `get_simple_status_text`:
return the replacement of the first pair whose prefix matches, else the input. -/
def first_startswith_match : List (String × String) → String → String
  | [], status => status
  | (old, new) :: rest, status =>
    if str_startswith status old then new else first_startswith_match rest status

/-- Embedding of `get_simple_status_text`. -/
def get_simple_status_text (status : String) : String :=
  first_startswith_match mapping_startswith status

/-- The Python value passed as `status` to `format_status_text`: either not a list at
all (any other object), or a list; elements are modelled as strings. -/
inductive StatusVal where
  | notAList
  | list (elems : List String)

/-- A translation object: only its `gettext` method is used. -/
structure Translation where
  gettext : String → String

/-- Modelled from the spec: `cms.locale.DEFAULT_TRANSLATION` is not in the excerpt;
per the docstring of `format_status_text` the default translator is the identity
function. -/
def DEFAULT_TRANSLATION : Translation := ⟨fun s => s⟩

/-- Python's `template % tuple(args)` for string arguments, over the template's
characters.  `%s` consumes one argument, `%%` emits a literal percent; any other
directive is modelled as a formatting error, as are too few or leftover arguments
(Python raises `TypeError`/`ValueError` in those cases). -/
def pct_format_aux : List Char → List String → Except String (List Char)
  | [], [] => .ok []
  | [], _ :: _ => .error "not all arguments converted during string formatting"
  | '%' :: 's' :: rest, args =>
    match args with
    | [] => .error "not enough arguments for format string"
    | a :: args' =>
      match pct_format_aux rest args' with
      | .ok l => .ok (a.data ++ l)
      | .error e => .error e
  | '%' :: '%' :: rest, args =>
    match pct_format_aux rest args with
    | .ok l => .ok ('%' :: l)
    | .error e => .error e
  | '%' :: _ :: _, _ => .error "unsupported format character"
  | ['%'], _ => .error "incomplete format"
  | c :: rest, args =>
    match pct_format_aux rest args with
    | .ok l => .ok (c :: l)
    | .error e => .error e

/-- Python's `template % tuple(args)` on a `String` template. -/
def pct_format (s : String) (args : List String) : Except String String :=
  match pct_format_aux s.data args with
  | .ok l => .ok (String.mk l)
  | .error e => .error e

/-- The body of the `try:` block of `format_status_text`: every Python exception that
the block can raise is an `Except.error`.  Mirrors, in order: the `isinstance` check
(`TypeError`), `status[0]` (`IndexError` on an empty list), the prefix rewriting, the
empty-msgid special case, and the `%`-substitution. -/
def format_status_text_inner (status : StatusVal) (translation : Translation) :
    Except String String :=
  match status with
  | .notAList => .error "Invalid type"
  | .list [] => .error "list index out of range"
  | .list (s0 :: args) =>
    let plain := get_simple_status_text s0
    let text := if plain ≠ "" then translation.gettext plain else ""
    pct_format text args

/-- Embedding of `format_status_text`: the `except Exception` handler maps every
failure of the body to the translated `"N/A"` (the `logger.error` call is a side
effect outside this embedding). -/
def format_status_text (status : StatusVal) (translation : Translation) : String :=
  match format_status_text_inner status translation with
  | .ok s => s
  | .error _ => translation.gettext "N/A"

/-! Concrete inputs used to instantiate the theorems below on closed data. -/

/-- Every testcase public. -/
def pub_all : String → Bool := fun _ => true

/-- Only testcase `"a"` public. -/
def pub_a : String → Bool := fun s => s = "a"

/-- Testcases `"a"` and `"b"` public, everything else private. -/
def pub_ab : String → Bool := fun s => s = "a" || s = "b"

/-- Outcomes `a ↦ 1, b ↦ 3/5, c ↦ 1` (the spec's minimum-policy example). -/
def ev_min_example : String → Evaluation :=
  fun s => if s = "b" then ⟨3/5, [], 0, 0⟩ else ⟨1, [], 0, 0⟩

/-- Outcomes `a ↦ 1`, everything else `0` (the spec's visibility example). -/
def ev_visibility : String → Evaluation :=
  fun s => if s = "a" then ⟨1, [], 0, 0⟩ else ⟨0, [], 0, 0⟩

/-- Outcomes `b ↦ -1`, everything else `1` (outcome outside the nominal range). -/
def ev_negative : String → Evaluation :=
  fun s => if s = "b" then ⟨-1, [], 0, 0⟩ else ⟨1, [], 0, 0⟩

/-- Outcomes `a ↦ 1/2`, everything else `3/10` (partial outcomes). -/
def ev_halves : String → Evaluation :=
  fun s => if s = "a" then ⟨1/2, [], 0, 0⟩ else ⟨3/10, [], 0, 0⟩

/-- Every outcome `1`. -/
def ev_ones : String → Evaluation := fun _ => ⟨1, [], 0, 0⟩

/-- Outcomes `b ↦ 1/2`, everything else `1`. -/
def ev_c5 : String → Evaluation :=
  fun s => if s = "b" then ⟨1/2, [], 0, 0⟩ else ⟨1, [], 0, 0⟩

namespace GroupMin

/-- Result of the visibility example: one subtask of weight 30 over
`[a(public, 1), b(public, 0), c(private, 0)]`. -/
def c2_r : ScoreResult :=
  (compute_score [⟨30, "3", none⟩] [["a", "b", "c"]] pub_ab ev_visibility true).get
    (by with_unfolding_all decide)

/-- First subtask entry of `c2_r`. -/
def c2_st : SubtaskFeedback := (c2_r.subtasks[0]?).get (by with_unfolding_all decide)

/-- Second testcase (`"b"`) breakdown entry of `c2_st`. -/
def c2_tc1 : TestcaseFeedback := (c2_st.testcases[1]?).get (by with_unfolding_all decide)

/-- Third testcase (`"c"`) breakdown entry of `c2_st`. -/
def c2_tc2 : TestcaseFeedback := (c2_st.testcases[2]?).get (by with_unfolding_all decide)

/-- Result for one all-public subtask of weight 10 over `[a(1/2), b(3/10)]`. -/
def c4_r : ScoreResult :=
  (compute_score [⟨10, "2", none⟩] [["a", "b"]] pub_all ev_halves true).get
    (by with_unfolding_all decide)

/-- Result for two fully public subtasks of weights 40 and 60 with outcomes 1 and 1/2. -/
def c5_r : ScoreResult :=
  (compute_score [⟨40, "1", none⟩, ⟨60, "1", some "Extra"⟩] [["a"], ["b"]] pub_all ev_c5 true).get
    (by with_unfolding_all decide)

/-- Result for one subtask of weight 30 over `[a(public, 1), b(private, 1)]`: all
outcomes equal. -/
def c9_r : ScoreResult :=
  (compute_score [⟨30, "2", none⟩] [["a", "b"]] pub_a ev_ones true).get
    (by with_unfolding_all decide)

/-- First subtask entry of `c9_r`. -/
def c9_st : SubtaskFeedback := (c9_r.subtasks[0]?).get (by with_unfolding_all decide)

/-- Second testcase (`"b"`) breakdown entry of `c9_st`. -/
def c9_tc1 : TestcaseFeedback := (c9_st.testcases[1]?).get (by with_unfolding_all decide)

/-- Result for two subtasks, the second not fully public:
weights 10 and 20 over `[["a"], ["b", "c"]]` with only `"a"` public. -/
def c10_r : ScoreResult :=
  (compute_score [⟨10, "1", none⟩, ⟨20, "2", none⟩] [["a"], ["b", "c"]] pub_a ev_ones true).get
    (by with_unfolding_all decide)

/-- Second `public_subtasks` entry of `c10_r` (a reduced, identifier-only entry). -/
def c10_pst1 : PublicSubtask := (c10_r.public_subtasks[1]?).get (by with_unfolding_all decide)

end GroupMin

/-! Helper lemmas about the embedded functions. -/

namespace GroupMin

theorem tc_loop_length (ev : String → Evaluation) (pub : String → Bool) (par : Param)
    (w : ℚ) (t : List String) (b : Bool) :
    ((tc_loop ev pub par w b t).1).length = t.length := by
  induction t generalizing b with
  | nil => rfl
  | cons tc rest ih =>
    by_cases h : pub tc = true <;> simp [tc_loop, h, ih]

theorem tc_loop_step (ev : String → Evaluation) (pub : String → Bool) (par : Param)
    (w : ℚ) (tc : String) (rest : List String) (b : Bool) (j : ℕ) :
    ((tc_loop ev pub par w b (tc :: rest)).1)[j + 1]?
      = ((tc_loop ev pub par w
          (b && !(pub tc && decide ((ev tc).outcome ≤ w))) rest).1)[j]? := by
  by_cases h : pub tc = true
  · by_cases hle : (ev tc).outcome ≤ w <;> simp [tc_loop, h, hle]
  · simp [tc_loop, h]

theorem tc_loop_show (ev : String → Evaluation) (pub : String → Bool) (par : Param)
    (w : ℚ) (t : List String) (b : Bool) (j : ℕ) :
    (((tc_loop ev pub par w b t).1)[j]?).map (·.show_in_restricted_feedback)
      = (t[j]?).map fun _ =>
          b && ((t.take j).all fun s => !(pub s && decide ((ev s).outcome ≤ w))) := by
  induction t generalizing b j with
  | nil => simp [tc_loop]
  | cons tc rest ih =>
    match j with
    | 0 =>
      by_cases h : pub tc = true <;> simp [tc_loop, h]
    | j + 1 =>
      rw [tc_loop_step, ih]
      cases hrj : rest[j]? <;> simp [hrj, Bool.and_assoc]

theorem tc_loop_idx (ev : String → Evaluation) (pub : String → Bool) (par : Param)
    (w : ℚ) (t : List String) (b : Bool) (j : ℕ) :
    (((tc_loop ev pub par w b t).1)[j]?).map (·.idx) = t[j]? := by
  induction t generalizing b j with
  | nil => simp [tc_loop]
  | cons tc rest ih =>
    match j with
    | 0 => by_cases h : pub tc = true <;> simp [tc_loop, h]
    | j + 1 => rw [tc_loop_step, ih]; simp

theorem compute_subtask_eq (st_idx : ℕ) (param : Param) (target : List String)
    (pub : String → Bool) (ev : String → Evaluation) (w : ℚ)
    (hw : (target.map fun tc => (ev tc).outcome).min? = some w) :
    compute_subtask st_idx param target pub ev = some
      { st_score := w * param.weight
        subtask_dict :=
          { idx := st_idx + 1, score_fraction := w, max_score := param.weight
            testcases := (tc_loop ev pub param w true target).1
            alt_title := param.alt_title }
        public_entry :=
          if target.all pub then
            PublicSubtask.full
              { idx := st_idx + 1, score_fraction := w, max_score := param.weight
                testcases := (tc_loop ev pub param w true target).1
                alt_title := param.alt_title }
          else PublicSubtask.restricted (st_idx + 1) (tc_loop ev pub param w true target).2
        all_public := target.all pub
        ranking := pct_g (roundTo2 (w * param.weight)) } := by
  simp [compute_subtask, reduce, hw]

theorem compute_subtask_elim (st_idx : ℕ) (param : Param) (target : List String)
    (pub : String → Bool) (ev : String → Evaluation) (step : StepResult)
    (h : compute_subtask st_idx param target pub ev = some step) :
    ∃ w, (target.map fun tc => (ev tc).outcome).min? = some w ∧
      step =
      { st_score := w * param.weight
        subtask_dict :=
          { idx := st_idx + 1, score_fraction := w, max_score := param.weight
            testcases := (tc_loop ev pub param w true target).1
            alt_title := param.alt_title }
        public_entry :=
          if target.all pub then
            PublicSubtask.full
              { idx := st_idx + 1, score_fraction := w, max_score := param.weight
                testcases := (tc_loop ev pub param w true target).1
                alt_title := param.alt_title }
          else PublicSubtask.restricted (st_idx + 1) (tc_loop ev pub param w true target).2
        all_public := target.all pub
        ranking := pct_g (roundTo2 (w * param.weight)) } := by
  cases hw : (target.map fun tc => (ev tc).outcome).min? with
  | none => simp [compute_subtask, hw] at h
  | some w =>
    refine ⟨w, rfl, ?_⟩
    have := compute_subtask_eq st_idx param target pub ev w hw
    rw [this] at h
    exact (Option.some_inj.mp h).symm

theorem compute_subtask_isSome (st_idx : ℕ) (param : Param) (target : List String)
    (pub : String → Bool) (ev : String → Evaluation) (h : target ≠ []) :
    ∃ step, compute_subtask st_idx param target pub ev = some step := by
  cases hw : (target.map fun tc => (ev tc).outcome).min? with
  | none =>
    rw [List.min?_eq_none_iff, List.map_eq_nil_iff] at hw
    exact absurd hw h
  | some w => exact ⟨_, compute_subtask_eq st_idx param target pub ev w hw⟩

theorem subtask_loop_get (pub : String → Bool) (ev : String → Evaluation)
    (params : List Param) :
    ∀ (k : ℕ) (targets : List (List String)) (r : ScoreResult),
      subtask_loop pub ev k params targets = some r →
      ∀ (i : ℕ) (param : Param), params[i]? = some param →
      ∃ target step, targets[i]? = some target ∧
        compute_subtask (k + i) param target pub ev = some step ∧
        r.subtasks[i]? = some step.subtask_dict ∧
        r.public_subtasks[i]? = some step.public_entry ∧
        r.ranking_details[i]? = some step.ranking := by
  induction params with
  | nil => intro k targets r h i param hp; simp at hp
  | cons p ps ih =>
    intro k targets r h i param hp
    match targets with
    | [] => exact absurd h (by simp [subtask_loop])
    | t :: ts =>
      rw [subtask_loop] at h
      simp only [Option.bind_eq_bind, Option.bind_eq_some] at h
      obtain ⟨step, hstep, rest, hrest, hr⟩ := h
      obtain rfl : _ = r := Option.some_inj.mp hr
      match i with
      | 0 =>
        obtain rfl : p = param := by simpa using hp
        exact ⟨t, step, by simp, by simpa using hstep, by simp, by simp, by simp⟩
      | i + 1 =>
        obtain ⟨target, step', ht, hcs, h1, h2, h3⟩ :=
          ih (k + 1) ts rest hrest i param (by simpa using hp)
        refine ⟨target, step', by simpa using ht, ?_, by simpa using h1,
          by simpa using h2, by simpa using h3⟩
        have : k + 1 + i = k + (i + 1) := by omega
        rwa [this] at hcs

theorem subtask_loop_lengths (pub : String → Bool) (ev : String → Evaluation)
    (params : List Param) :
    ∀ (k : ℕ) (targets : List (List String)) (r : ScoreResult),
      subtask_loop pub ev k params targets = some r →
      r.subtasks.length = params.length ∧
      r.public_subtasks.length = params.length ∧
      r.ranking_details.length = params.length ∧
      params.length ≤ targets.length := by
  induction params with
  | nil =>
    intro k targets r h
    obtain rfl : _ = r := Option.some_inj.mp h
    simp
  | cons p ps ih =>
    intro k targets r h
    match targets with
    | [] => exact absurd h (by simp [subtask_loop])
    | t :: ts =>
      rw [subtask_loop] at h
      simp only [Option.bind_eq_bind, Option.bind_eq_some] at h
      obtain ⟨step, hstep, rest, hrest, hr⟩ := h
      obtain rfl : _ = r := Option.some_inj.mp hr
      obtain ⟨h1, h2, h3, h4⟩ := ih (k + 1) ts rest hrest
      simp [h1, h2, h3, Nat.succ_le_succ h4]

theorem subtask_loop_isSome (pub : String → Bool) (ev : String → Evaluation)
    (params : List Param) :
    ∀ (k : ℕ) (targets : List (List String)),
      params.length ≤ targets.length → (∀ t ∈ targets, t ≠ []) →
      ∃ r, subtask_loop pub ev k params targets = some r := by
  induction params with
  | nil => intro k targets _ _; exact ⟨_, rfl⟩
  | cons p ps ih =>
    intro k targets hlen hne
    match targets with
    | [] => simp at hlen
    | t :: ts =>
      obtain ⟨step, hstep⟩ :=
        compute_subtask_isSome k p t pub ev (hne t (List.mem_cons_self t ts))
      obtain ⟨rest, hrest⟩ := ih (k + 1) ts (by simpa using hlen)
        (fun u hu => hne u (List.mem_cons_of_mem t hu))
      exact ⟨⟨step.st_score + rest.score, step.subtask_dict :: rest.subtasks,
              (if step.all_public then step.st_score else 0) + rest.public_score,
              step.public_entry :: rest.public_subtasks,
              step.ranking :: rest.ranking_details⟩,
             by rw [subtask_loop]
                simp only [Option.bind_eq_bind, hstep, hrest, Option.some_bind]⟩

theorem subtask_loop_score (pub : String → Bool) (ev : String → Evaluation)
    (params : List Param) :
    ∀ (k : ℕ) (targets : List (List String)) (r : ScoreResult),
      subtask_loop pub ev k params targets = some r →
      r.score = ((params.zip targets).map fun pt =>
        (((pt.2.map fun tc => (ev tc).outcome).min?).getD 0) * pt.1.weight).sum := by
  induction params with
  | nil =>
    intro k targets r h
    obtain rfl : _ = r := Option.some_inj.mp h
    simp
  | cons p ps ih =>
    intro k targets r h
    match targets with
    | [] => exact absurd h (by simp [subtask_loop])
    | t :: ts =>
      rw [subtask_loop] at h
      simp only [Option.bind_eq_bind, Option.bind_eq_some] at h
      obtain ⟨step, hstep, rest, hrest, hr⟩ := h
      obtain rfl : _ = r := Option.some_inj.mp hr
      obtain ⟨w, hw, rfl⟩ := compute_subtask_elim k p t pub ev step hstep
      have hrec := ih (k + 1) ts rest hrest
      simp [hw, hrec]

theorem subtask_loop_public_le (pub : String → Bool) (ev : String → Evaluation)
    (params : List Param) :
    ∀ (k : ℕ) (targets : List (List String)) (r : ScoreResult),
      subtask_loop pub ev k params targets = some r →
      (∀ p ∈ params, 0 ≤ p.weight) →
      (∀ t ∈ targets, ∀ s ∈ t, 0 ≤ (ev s).outcome) →
      r.public_score ≤ r.score := by
  induction params with
  | nil =>
    intro k targets r h _ _
    obtain rfl : _ = r := Option.some_inj.mp h
    simp
  | cons p ps ih =>
    intro k targets r h hweight houtcome
    match targets with
    | [] => exact absurd h (by simp [subtask_loop])
    | t :: ts =>
      rw [subtask_loop] at h
      simp only [Option.bind_eq_bind, Option.bind_eq_some] at h
      obtain ⟨step, hstep, rest, hrest, hr⟩ := h
      obtain rfl : _ = r := Option.some_inj.mp hr
      obtain ⟨w, hw, rfl⟩ := compute_subtask_elim k p t pub ev step hstep
      have hw0 : 0 ≤ w := by
        have hmem := List.min?_mem (fun a b => min_choice a b) hw
        rw [List.mem_map] at hmem
        obtain ⟨s, hs, rfl⟩ := hmem
        exact houtcome t (List.mem_cons_self t ts) s hs
      have hst : 0 ≤ w * p.weight :=
        mul_nonneg hw0 (hweight p (List.mem_cons_self p ps))
      have hrec := ih (k + 1) ts rest hrest
        (fun q hq => hweight q (List.mem_cons_of_mem p hq))
        (fun u hu => houtcome u (List.mem_cons_of_mem t hu))
      dsimp only
      by_cases hall : t.all pub = true
      · rw [if_pos hall]
        exact add_le_add_left hrec _
      · rw [if_neg hall]
        exact add_le_add hst hrec

theorem subtask_loop_all_public (pub : String → Bool) (ev : String → Evaluation)
    (params : List Param) :
    ∀ (k : ℕ) (targets : List (List String)) (r : ScoreResult),
      subtask_loop pub ev k params targets = some r →
      (∀ t ∈ targets, ∀ s ∈ t, pub s = true) →
      r.public_score = r.score ∧
      r.public_subtasks = r.subtasks.map PublicSubtask.full := by
  induction params with
  | nil =>
    intro k targets r h _
    obtain rfl : _ = r := Option.some_inj.mp h
    simp
  | cons p ps ih =>
    intro k targets r h hpub
    match targets with
    | [] => exact absurd h (by simp [subtask_loop])
    | t :: ts =>
      rw [subtask_loop] at h
      simp only [Option.bind_eq_bind, Option.bind_eq_some] at h
      obtain ⟨step, hstep, rest, hrest, hr⟩ := h
      obtain rfl : _ = r := Option.some_inj.mp hr
      obtain ⟨w, hw, rfl⟩ := compute_subtask_elim k p t pub ev step hstep
      have hall : t.all pub = true :=
        List.all_eq_true.mpr fun s hs => hpub t (List.mem_cons_self t ts) s hs
      obtain ⟨h1, h2⟩ := ih (k + 1) ts rest hrest
        (fun u hu => hpub u (List.mem_cons_of_mem t hu))
      simp [hall, h1, h2]

theorem foldl_min_const (c : ℚ) :
    ∀ (l : List ℚ), (∀ x ∈ l, x = c) → l.foldl min c = c := by
  intro l
  induction l with
  | nil => intro _; rfl
  | cons a as ih =>
    intro h
    obtain rfl : a = c := h a (List.mem_cons_self a as)
    rw [List.foldl_cons, min_self]
    exact ih fun x hx => h x (List.mem_cons_of_mem a hx)

theorem min?_const (c : ℚ) (l : List ℚ) (hne : l ≠ []) (hc : ∀ x ∈ l, x = c) :
    l.min? = some c := by
  match l with
  | a :: as =>
    rw [List.min?_cons']
    obtain rfl : a = c := hc a (List.mem_cons_self a as)
    rw [foldl_min_const a as fun x hx => hc x (List.mem_cons_of_mem a hx)]

theorem compute_score_subtask (params : List Param) (targets : List (List String))
    (pub : String → Bool) (ev : String → Evaluation) (r : ScoreResult)
    (h : compute_score params targets pub ev true = some r)
    (i : ℕ) (st : SubtaskFeedback) (hst : r.subtasks[i]? = some st) :
    ∃ param target w, params[i]? = some param ∧ targets[i]? = some target ∧
      (target.map fun tc => (ev tc).outcome).min? = some w ∧
      st = { idx := i + 1, score_fraction := w, max_score := param.weight
             testcases := (tc_loop ev pub param w true target).1
             alt_title := param.alt_title } := by
  rw [compute_score] at h
  simp only [Bool.not_true, Bool.false_eq_true, if_false] at h
  have hlen := subtask_loop_lengths pub ev params 0 targets r h
  have hi : i < r.subtasks.length := by
    cases hlt : Nat.decLt i r.subtasks.length with
    | isTrue hlt' => exact hlt'
    | isFalse hlt' =>
      rw [List.getElem?_eq_none (Nat.le_of_not_lt hlt')] at hst
      cases hst
  have hip : i < params.length := hlen.1 ▸ hi
  have hparam : params[i]? = some (params[i]) := List.getElem?_eq_getElem hip
  obtain ⟨target, step, ht, hcs, hsub, _, _⟩ :=
    subtask_loop_get pub ev params 0 targets r h i (params[i]) hparam
  rw [hst] at hsub
  obtain rfl : st = step.subtask_dict := Option.some_inj.mp hsub
  obtain ⟨w, hw, rfl⟩ := compute_subtask_elim (0 + i) (params[i]) target pub ev step hcs
  refine ⟨params[i], target, w, hparam, ht, hw, ?_⟩
  rw [Nat.zero_add]

/-! Theorems for the claims. -/

/-- C1: for every evaluated submission result with an outcome for every testcase of
every configured subtask (one non-empty testcase list per parameter), `compute_score`
succeeds and returns a total score equal to the sum over subtasks of the minimum of
the subtask's outcomes multiplied by the subtask's weight (`parameter[0]`). -/
theorem C1_score_is_sum_of_weighted_minima
    (params : List Param) (targets : List (List String))
    (pub : String → Bool) (ev : String → Evaluation)
    (hlen : targets.length = params.length)
    (hne : ∀ t ∈ targets, t ≠ []) :
    ∃ r, compute_score params targets pub ev true = some r ∧
      r.score = ((params.zip targets).map fun pt =>
        (((pt.2.map fun tc => (ev tc).outcome).min?).getD 0) * pt.1.weight).sum := by
  obtain ⟨r, hr⟩ := subtask_loop_isSome pub ev params 0 targets (le_of_eq hlen.symm) hne
  refine ⟨r, ?_, subtask_loop_score pub ev params 0 targets r hr⟩
  rw [compute_score]
  simpa using hr

/-- Witness for C1 at the spec's minimum-policy example: one subtask of weight 30 with
outcomes `[1, 3/5, 1]`; the sum formula holds, evaluates to 18, and the stored
`score_fraction` is `3/5`. -/
theorem C1_witness :
    (∃ r, compute_score [⟨30, "3", none⟩] [["a", "b", "c"]] pub_all ev_min_example true
        = some r ∧
      r.score = (([(⟨30, "3", none⟩ : Param)].zip [["a", "b", "c"]]).map fun pt =>
        (((pt.2.map fun tc => (ev_min_example tc).outcome).min?).getD 0) * pt.1.weight).sum) ∧
    (([(⟨30, "3", none⟩ : Param)].zip [["a", "b", "c"]]).map fun pt =>
      (((pt.2.map fun tc => (ev_min_example tc).outcome).min?).getD 0) * pt.1.weight).sum
      = 18 ∧
    ((compute_score [⟨30, "3", none⟩] [["a", "b", "c"]] pub_all ev_min_example true).bind
        fun r => (r.subtasks[0]?).map (·.score_fraction)) = some (3/5) :=
  ⟨C1_score_is_sum_of_weighted_minima _ _ _ _ (by decide) (by decide),
   by with_unfolding_all decide, by with_unfolding_all decide⟩

/-- C2: in every evaluated result, the `show_in_restricted_feedback` flag of the `j`-th
testcase of a subtask equals the conjunction, over the strictly-earlier testcases of
the subtask, of "not (public and outcome at or below the subtask's minimum outcome)":
the flag starts `true`, is stamped before any update, and is set to `false` exactly by
a public testcase whose outcome is `≤` the subtask minimum. -/
theorem C2_flag_characterization
    (params : List Param) (targets : List (List String))
    (pub : String → Bool) (ev : String → Evaluation) (r : ScoreResult)
    (h : compute_score params targets pub ev true = some r)
    (i : ℕ) (st : SubtaskFeedback) (hst : r.subtasks[i]? = some st)
    (target : List String) (ht : targets[i]? = some target)
    (w : ℚ) (hw : (target.map fun tc => (ev tc).outcome).min? = some w)
    (j : ℕ) (tcj : TestcaseFeedback) (hj : st.testcases[j]? = some tcj) :
    tcj.show_in_restricted_feedback
      = ((target.take j).all fun s => !(pub s && decide ((ev s).outcome ≤ w))) := by
  obtain ⟨param, target', w', hparam, ht', hw', hsteq⟩ :=
    compute_score_subtask params targets pub ev r h i st hst
  obtain rfl : target = target' := by rw [ht] at ht'; exact Option.some_inj.mp ht'
  obtain rfl : w = w' := by rw [hw] at hw'; exact Option.some_inj.mp hw'
  subst hsteq
  simp only at hj
  have hjlen : j < target.length := by
    cases Nat.decLt j ((tc_loop ev pub param w true target).1).length with
    | isTrue hlt => rwa [tc_loop_length] at hlt
    | isFalse hlt =>
      rw [List.getElem?_eq_none (Nat.le_of_not_lt hlt)] at hj
      cases hj
  have hshow := tc_loop_show ev pub param w target true j
  rw [hj, List.getElem?_eq_getElem hjlen] at hshow
  simpa using hshow

/-- Witness for C2 at the spec's visibility example
`[a(public, 1), b(public, 0), c(private, 0)]` with subtask minimum 0: the flag of the
third testcase satisfies the characterization, and the three flags are
`[true, true, false]`. -/
theorem C2_witness :
    c2_tc2.show_in_restricted_feedback
      = ((["a", "b", "c"].take 2).all fun s =>
          !(pub_ab s && decide ((ev_visibility s).outcome ≤ 0))) ∧
    c2_st.testcases.map (·.show_in_restricted_feedback) = [true, true, false] :=
  ⟨C2_flag_characterization [⟨30, "3", none⟩] [["a", "b", "c"]] pub_ab ev_visibility
      c2_r (by with_unfolding_all decide) 0 c2_st (by with_unfolding_all decide)
      ["a", "b", "c"] (by decide) 0 (by with_unfolding_all decide)
      2 c2_tc2 (by with_unfolding_all decide),
   by with_unfolding_all decide⟩

/-- Counterexample to C3 as stated (no restriction on outcomes or weights): with an
outcome of `-1` on a private subtask, the public score 10 exceeds the total score 0. -/
theorem C3_counterexample :
    (compute_score [⟨10, "1", none⟩, ⟨10, "1", none⟩] [["a"], ["b"]] pub_a ev_negative
      true).map (fun r => decide (r.public_score ≤ r.score)) = some false := by
  with_unfolding_all decide

/-- C3 (amended): whenever every outcome is nonnegative and every subtask weight is
nonnegative, the public score returned by `compute_score` is at most the total
score. -/
theorem C3_amended_public_score_le_score
    (params : List Param) (targets : List (List String))
    (pub : String → Bool) (ev : String → Evaluation) (evaluated : Bool) (r : ScoreResult)
    (h : compute_score params targets pub ev evaluated = some r)
    (hweight : ∀ p ∈ params, 0 ≤ p.weight)
    (houtcome : ∀ t ∈ targets, ∀ s ∈ t, 0 ≤ (ev s).outcome) :
    r.public_score ≤ r.score := by
  cases evaluated with
  | false =>
    rw [compute_score] at h
    simp only [Bool.not_false, if_true] at h
    obtain rfl : _ = r := Option.some_inj.mp h
    exact le_refl 0
  | true =>
    rw [compute_score] at h
    simp only [Bool.not_true, Bool.false_eq_true, if_false] at h
    exact subtask_loop_public_le pub ev params 0 targets r h hweight houtcome

/-- Witness for C3 (amended) at the visibility example (nonnegative outcomes and
weights): its public score 0 is at most its total score 0. -/
theorem C3_amended_witness : c2_r.public_score ≤ c2_r.score :=
  C3_amended_public_score_le_score [⟨30, "3", none⟩] [["a", "b", "c"]] pub_ab
    ev_visibility true c2_r (by with_unfolding_all decide) (by decide) (by decide)

/-- Counterexample to C4 as stated: with one subtask over
`[a(public, 1/2), b(public, 3/10)]`, testcase `b`'s entry has
`show_in_restricted_feedback = true` although the strictly-earlier public testcase `a`
is not fully correct (its outcome `1/2 < 1`). -/
theorem C4_counterexample :
    ((c4_r.subtasks[0]?).bind fun st => (st.testcases[1]?).map
      (·.show_in_restricted_feedback)) = some true ∧
    ((c4_r.subtasks[0]?).bind fun st => (st.testcases[0]?).map
      (fun tc => (tc.idx, tc.show_in_restricted_feedback))) = some ("a", true) ∧
    pub_all "a" = true ∧ ¬ (1 ≤ (ev_halves "a").outcome) ∧
    compute_score [⟨10, "2", none⟩] [["a", "b"]] pub_all ev_halves true = some c4_r := by
  with_unfolding_all decide

/-- C4 (amended): if a testcase's breakdown entry has
`show_in_restricted_feedback = true`, then every strictly-earlier public testcase of
the same subtask has outcome strictly above the subtask's minimum outcome (rather than
"fully correct" as the claim states). -/
theorem C4_amended_show_implies_earlier_public_above_min
    (params : List Param) (targets : List (List String))
    (pub : String → Bool) (ev : String → Evaluation) (r : ScoreResult)
    (h : compute_score params targets pub ev true = some r)
    (i : ℕ) (st : SubtaskFeedback) (hst : r.subtasks[i]? = some st)
    (target : List String) (ht : targets[i]? = some target)
    (w : ℚ) (hw : (target.map fun tc => (ev tc).outcome).min? = some w)
    (j : ℕ) (tcj : TestcaseFeedback) (hj : st.testcases[j]? = some tcj)
    (hshow : tcj.show_in_restricted_feedback = true)
    (m : ℕ) (hm : m < j) (s : String) (hs : target[m]? = some s)
    (hpub : pub s = true) :
    w < (ev s).outcome := by
  obtain ⟨param, target', w', hparam, ht', hw', hsteq⟩ :=
    compute_score_subtask params targets pub ev r h i st hst
  obtain rfl : target = target' := by rw [ht] at ht'; exact Option.some_inj.mp ht'
  obtain rfl : w = w' := by rw [hw] at hw'; exact Option.some_inj.mp hw'
  subst hsteq
  simp only at hj
  have hjlen : j < target.length := by
    cases Nat.decLt j ((tc_loop ev pub param w true target).1).length with
    | isTrue hlt => rwa [tc_loop_length] at hlt
    | isFalse hlt =>
      rw [List.getElem?_eq_none (Nat.le_of_not_lt hlt)] at hj
      cases hj
  have hshoweq := tc_loop_show ev pub param w target true j
  rw [hj, List.getElem?_eq_getElem hjlen] at hshoweq
  have hall : ((target.take j).all fun s => !(pub s && decide ((ev s).outcome ≤ w)))
      = true := by
    simp only [Option.map_some'] at hshoweq
    have h2 := Option.some_inj.mp hshoweq
    rw [hshow] at h2
    simpa using h2.symm
  have hsmem : s ∈ target.take j :=
    List.getElem?_mem (by rw [List.getElem?_take, if_pos hm]; exact hs)
  have hP := List.all_eq_true.mp hall s hsmem
  rw [hpub] at hP
  simp only [Bool.true_and, Bool.not_eq_eq_eq_not, Bool.not_true,
    decide_eq_false_iff_not] at hP
  exact not_le.mp hP

/-- Witness for C4 (amended) at the visibility example: testcase `b` (position 1) has
its flag `true`, and the strictly-earlier public testcase `a` indeed has outcome `1`
strictly above the subtask minimum `0`. -/
theorem C4_amended_witness : (0 : ℚ) < (ev_visibility "a").outcome :=
  C4_amended_show_implies_earlier_public_above_min
    [⟨30, "3", none⟩] [["a", "b", "c"]] pub_ab ev_visibility c2_r
    (by with_unfolding_all decide) 0 c2_st (by with_unfolding_all decide)
    ["a", "b", "c"] (by decide) 0 (by with_unfolding_all decide)
    1 c2_tc1 (by with_unfolding_all decide) (by with_unfolding_all decide)
    0 (by decide) "a" (by decide) (by decide)

/-- C5: if every testcase of every subtask is public, `compute_score` returns
`public_score` equal to `score` and `public_subtasks` equal, element for element, to
`subtasks` (each wrapped in full disclosure form). -/
theorem C5_all_public_full_disclosure
    (params : List Param) (targets : List (List String))
    (pub : String → Bool) (ev : String → Evaluation) (r : ScoreResult)
    (h : compute_score params targets pub ev true = some r)
    (hpub : ∀ t ∈ targets, ∀ s ∈ t, pub s = true) :
    r.public_score = r.score ∧
    r.public_subtasks = r.subtasks.map PublicSubtask.full := by
  rw [compute_score] at h
  simp only [Bool.not_true, Bool.false_eq_true, if_false] at h
  exact subtask_loop_all_public pub ev params 0 targets r h hpub

/-- Witness for C5 on two fully public subtasks of weights 40 and 60 with outcomes 1
and 1/2: public score equals score (both 70) and the public subtasks list mirrors the
full one. -/
theorem C5_witness :
    (c5_r.public_score = c5_r.score ∧
      c5_r.public_subtasks = c5_r.subtasks.map PublicSubtask.full) ∧
    (c5_r.score, c5_r.public_score) = (70, 70) :=
  ⟨C5_all_public_full_disclosure [⟨40, "1", none⟩, ⟨60, "1", some "Extra"⟩]
      [["a"], ["b"]] pub_all ev_c5 c5_r (by with_unfolding_all decide) (by decide),
   by with_unfolding_all decide⟩

/-- C6: for every unevaluated submission result, `compute_score` returns exactly
`(0.0, [], 0.0, [], L)` where `L` holds one `"%lg" % 0.0 == "0"` placeholder string
per configured subtask (one per parameter entry). -/
theorem C6_unevaluated_zero_tuple
    (params : List Param) (targets : List (List String))
    (pub : String → Bool) (ev : String → Evaluation) :
    compute_score params targets pub ev false
      = some ⟨0, [], 0, [], params.map fun _ => "0"⟩ ∧
    (params.map fun _ => "0").length = params.length :=
  ⟨rfl, by simp⟩

/-- C9: in every evaluated result, for a subtask all of whose outcomes are equal, every
testcase strictly after a public testcase has `show_in_restricted_feedback = false`
(the first public testcase's outcome equals the subtask minimum and flips the flag,
even though no testcase failed). -/
theorem C9_equal_outcomes_hide_later_testcases
    (params : List Param) (targets : List (List String))
    (pub : String → Bool) (ev : String → Evaluation) (r : ScoreResult)
    (h : compute_score params targets pub ev true = some r)
    (i : ℕ) (st : SubtaskFeedback) (hst : r.subtasks[i]? = some st)
    (target : List String) (ht : targets[i]? = some target)
    (c : ℚ) (hc : ∀ s ∈ target, (ev s).outcome = c)
    (k : ℕ) (sk : String) (hsk : target[k]? = some sk) (hpub : pub sk = true)
    (j : ℕ) (hkj : k < j) (tcj : TestcaseFeedback) (hj : st.testcases[j]? = some tcj) :
    tcj.show_in_restricted_feedback = false := by
  obtain ⟨param, target', w', hparam, ht', hw', hsteq⟩ :=
    compute_score_subtask params targets pub ev r h i st hst
  obtain rfl : target = target' := by rw [ht] at ht'; exact Option.some_inj.mp ht'
  obtain rfl : c = w' := by
    have hwc : (target.map fun tc => (ev tc).outcome).min? = some c := by
      apply min?_const
      · simp only [Ne, List.map_eq_nil_iff]
        intro hemp
        rw [hemp] at hsk
        cases hsk
      · intro x hx
        rw [List.mem_map] at hx
        obtain ⟨s, hsmem, rfl⟩ := hx
        exact hc s hsmem
    rw [hw'] at hwc
    exact (Option.some_inj.mp hwc).symm
  subst hsteq
  simp only at hj
  have hjlen : j < target.length := by
    cases Nat.decLt j ((tc_loop ev pub param c true target).1).length with
    | isTrue hlt => rwa [tc_loop_length] at hlt
    | isFalse hlt =>
      rw [List.getElem?_eq_none (Nat.le_of_not_lt hlt)] at hj
      cases hj
  have hshoweq := tc_loop_show ev pub param c target true j
  rw [hj, List.getElem?_eq_getElem hjlen] at hshoweq
  simp only [Option.map_some'] at hshoweq
  have heq := Option.some_inj.mp hshoweq
  rw [heq]
  have hsmem : sk ∈ target.take j :=
    List.getElem?_mem (by rw [List.getElem?_take, if_pos hkj]; exact hsk)
  have hout : (ev sk).outcome = c := hc sk (List.getElem?_mem hsk)
  cases hb : ((target.take j).all fun s => !(pub s && decide ((ev s).outcome ≤ c))) with
  | false => simp [hb]
  | true =>
    have hP := List.all_eq_true.mp hb sk hsmem
    rw [hpub, hout] at hP
    simp at hP

/-- Witness for C9 on one subtask `[a(public, 1), b(private, 1)]` with all outcomes
equal: testcase `b` (strictly after public `a`) is stamped `false`; the flags are
`[true, false]`. -/
theorem C9_witness :
    c9_tc1.show_in_restricted_feedback = false ∧
    c9_st.testcases.map (·.show_in_restricted_feedback) = [true, false] :=
  ⟨C9_equal_outcomes_hide_later_testcases [⟨30, "2", none⟩] [["a", "b"]] pub_a ev_ones
      c9_r (by with_unfolding_all decide) 0 c9_st (by with_unfolding_all decide)
      ["a", "b"] (by decide) 1 (by decide) 0 "a" (by decide) (by decide)
      1 (by decide) c9_tc1 (by with_unfolding_all decide),
   by with_unfolding_all decide⟩

/-- C10: every evaluated result has `subtasks`, `public_subtasks` and
`ranking_details` lists of length equal to the number of configured subtasks, in
static order, with matching one-based `idx` fields (`i + 1` at position `i`) on both
the full and the public entries — a not-fully-public subtask still occupies its
position. -/
theorem C10_static_subtask_positions
    (params : List Param) (targets : List (List String))
    (pub : String → Bool) (ev : String → Evaluation) (r : ScoreResult)
    (h : compute_score params targets pub ev true = some r) :
    r.subtasks.length = params.length ∧
    r.public_subtasks.length = params.length ∧
    r.ranking_details.length = params.length ∧
    (∀ i st, r.subtasks[i]? = some st → st.idx = i + 1) ∧
    (∀ i pst, r.public_subtasks[i]? = some pst → pst.idx = i + 1) := by
  have h' := h
  rw [compute_score] at h'
  simp only [Bool.not_true, Bool.false_eq_true, if_false] at h'
  have hlen := subtask_loop_lengths pub ev params 0 targets r h'
  refine ⟨hlen.1, hlen.2.1, hlen.2.2.1, ?_, ?_⟩
  · intro i st hst
    obtain ⟨param, target, w, _, _, _, rfl⟩ :=
      compute_score_subtask params targets pub ev r h i st hst
    rfl
  · intro i pst hst
    have hi : i < r.public_subtasks.length := by
      cases Nat.decLt i r.public_subtasks.length with
      | isTrue hlt => exact hlt
      | isFalse hlt =>
        rw [List.getElem?_eq_none (Nat.le_of_not_lt hlt)] at hst
        cases hst
    have hip : i < params.length := hlen.2.1 ▸ hi
    have hparam : params[i]? = some (params[i]) := List.getElem?_eq_getElem hip
    obtain ⟨target, step, ht, hcs, _, hpubst, _⟩ :=
      subtask_loop_get pub ev params 0 targets r h' i (params[i]) hparam
    rw [hst] at hpubst
    obtain rfl : pst = step.public_entry := Option.some_inj.mp hpubst
    obtain ⟨w, hw, rfl⟩ :=
      compute_subtask_elim (0 + i) (params[i]) target pub ev step hcs
    cases hall : target.all pub <;> simp [hall, PublicSubtask.idx, Nat.zero_add]

/-- Witness for C10 on two subtasks, the second not fully public: both `idx` chains
are `[1, 2]`, all three lists have length 2, and the second public entry is a reduced
identifier-only entry that still occupies its position. -/
theorem C10_witness :
    c10_pst1.idx = 1 + 1 ∧
    c10_r.subtasks.map (·.idx) = [1, 2] ∧
    c10_r.public_subtasks.map PublicSubtask.idx = [1, 2] ∧
    c10_r.ranking_details.length = 2 ∧
    c10_r.public_subtasks[1]?
      = some (PublicSubtask.restricted 2
          [PublicTestcase.idxOnly "b", PublicTestcase.idxOnly "c"]) :=
  ⟨(C10_static_subtask_positions [⟨10, "1", none⟩, ⟨20, "2", none⟩] [["a"], ["b", "c"]]
      pub_a ev_ones c10_r (by with_unfolding_all decide)).2.2.2.2 1 c10_pst1
      (by with_unfolding_all decide),
   by with_unfolding_all decide, by with_unfolding_all decide,
   by with_unfolding_all decide, by with_unfolding_all decide⟩

end GroupMin

theorem first_startswith_match_eq (l : List (String × String)) (status : String) :
    first_startswith_match l status
      = (((l.find? fun p => str_startswith status p.1).map Prod.snd).getD status) := by
  induction l with
  | nil => rfl
  | cons p rest ih =>
    by_cases h : str_startswith status p.1 = true
    · simp [first_startswith_match, List.find?_cons, h]
    · simp [first_startswith_match, List.find?_cons, h, ih]

/-- C7: `format_status_text` never lets a failure of its body escape: either the body
succeeds and its value is returned, or the result is the translated `"N/A"`; in
particular every malformed input (non-list status, empty status list, or a
`%`-substitution arity or type mismatch — exactly the `Except.error` cases of the
body) yields the locale's `"N/A"` string. -/
theorem C7_format_status_text_never_raises (status : StatusVal) (translation : Translation) :
    (format_status_text status translation = translation.gettext "N/A" ∨
      format_status_text_inner status translation
        = Except.ok (format_status_text status translation)) ∧
    (∀ e, format_status_text_inner status translation = Except.error e →
      format_status_text status translation = translation.gettext "N/A") := by
  constructor
  · cases hin : format_status_text_inner status translation with
    | ok s => right; rw [format_status_text, hin]
    | error e => left; rw [format_status_text, hin]
  · intro e he
    rw [format_status_text, he]

/-- Witness for C7 on a non-list status with the identity translation: the body fails
with a type error and the result is `"N/A"`. -/
theorem C7_witness :
    format_status_text StatusVal.notAList DEFAULT_TRANSLATION
      = DEFAULT_TRANSLATION.gettext "N/A" :=
  (C7_format_status_text_never_raises StatusVal.notAList DEFAULT_TRANSLATION).2
    "Invalid type" rfl

/-- C8: `get_simple_status_text` returns the replacement of the first entry of the
fixed prefix table whose prefix matches, and the template unchanged when none does;
for the status `["Execution timed out (wall clock limit exceeded)"]` the
time-limit-exceeded guidance template reaches the `%`-substitution with zero
arguments for every translation, and with the default translation the output is the
guidance message itself. -/
theorem C8_first_prefix_wins (status : String) (translation : Translation) :
    get_simple_status_text status
      = (((mapping_startswith.find? fun p => str_startswith status p.1).map
          Prod.snd).getD status) ∧
    format_status_text_inner
        (.list ["Execution timed out (wall clock limit exceeded)"]) translation
      = pct_format (translation.gettext
          ("Time limit exceeded before your program finished. " ++
           "This may be due to an infinite loop/recursion, or your " ++
           "algorithm may be too slow for this subtask")) [] ∧
    format_status_text (.list ["Execution timed out (wall clock limit exceeded)"])
        DEFAULT_TRANSLATION
      = "Time limit exceeded before your program finished. " ++
        "This may be due to an infinite loop/recursion, or your " ++
        "algorithm may be too slow for this subtask" := by
  refine ⟨first_startswith_match_eq mapping_startswith status, ?_, by decide⟩
  rw [format_status_text_inner]
  rw [show get_simple_status_text "Execution timed out (wall clock limit exceeded)"
        = "Time limit exceeded before your program finished. " ++
          "This may be due to an infinite loop/recursion, or your " ++
          "algorithm may be too slow for this subtask" from by decide]
  rw [if_pos (by decide)]

end CMS

